import Mathlib

/-!
Verification of the orbital-physics visualizer (`src/visualizer.py`).

The physics state is embedded shallowly: Python floats become real numbers,
the per-orb dictionaries become an `Orb` structure, the audio-data dictionary
becomes an `AudioData` structure with optional fields (`dict.get` defaulting),
and `math.atan2` becomes `Complex.arg`.  Python's `ZeroDivisionError` (raised
by `dx/dist` when `dist == 0.0`) is modelled by `Except`: `update` returns
`.error s` where `s` is the partially mutated state at the moment the
exception propagates, mirroring in-place mutation semantics.
-/

namespace Spacejam

open Real

/-- A trail entry `(current_x, current_y, intensity)` appended by `update`
(visualizer.py line 101). -/
abbrev TrailPoint : Type := ℝ × ℝ × ℝ

/-- One orb dictionary (visualizer.py lines 30-41). -/
structure Orb where
  color : ℕ × ℕ × ℕ
  angle : ℝ
  deviation : ℝ
  radial_velocity : ℝ
  angular_velocity : ℝ
  x_velocity : ℝ
  y_velocity : ℝ

/-- Default orb used only as the fallback value of `List.getD`. -/
def dummyOrb : Orb :=
  { color := (0, 0, 0), angle := 0, deviation := 0, radial_velocity := 0,
    angular_velocity := 0, x_velocity := 0, y_velocity := 0 }

/-- The audio-data dictionary consumed by `update`.  Both keys are optional:
the code reads them with `audio_data.get('intensity', 0)` and
`audio_data.get('has_recent_peak', False)` (lines 62-63). -/
structure AudioData where
  intensity : Option ℝ
  has_recent_peak : Option Bool

/-- Python truthiness of the `audio_data` argument (line 59, `if not audio_data`):
`None` and the empty dict `{}` are falsy; a dict with at least one key is truthy. -/
def audioTruthy : Option AudioData → Bool
  | none => false
  | some a => a.intensity.isSome || a.has_recent_peak.isSome

/-- The intensity value `update` extracts from its argument
(line 62, with the `dict.get` default of 0). -/
def frameIntensity (a : Option AudioData) : ℝ :=
  ((a.getD { intensity := none, has_recent_peak := none }).intensity).getD 0

/-- `pygame.Rect(x, y, w, h)`. -/
structure Rect where
  x : ℤ
  y : ℤ
  w : ℤ
  h : ℤ

/-- `pygame.Rect.collidepoint`: a point on the right or bottom edge is NOT
inside the rectangle (pygame semantics). -/
def Rect.collidepoint (r : Rect) (pos : ℤ × ℤ) : Bool :=
  decide (r.x ≤ pos.1 ∧ pos.1 < r.x + r.w ∧ r.y ≤ pos.2 ∧ pos.2 < r.y + r.h)

/-- `self.back_button = pygame.Rect(20, 20, 40, 40)` (line 44); set once in
`__init__` and never reassigned, hence modelled as a constant. -/
def back_button : Rect := { x := 20, y := 20, w := 40, h := 40 }

/-- `self.base_speed = 0.001` (line 24). -/
noncomputable def base_speed : ℝ := 0.001

/-- `self.spring_constant = 0.01` (line 26). -/
noncomputable def spring_constant : ℝ := 0.01

/-- `self.damping = 0.98` (line 27). -/
noncomputable def damping : ℝ := 0.98

/-- `self.attraction_strength = 0.5` (line 28). -/
noncomputable def attraction_strength : ℝ := 0.5

/-- The mutable state of a `Visualizer` instance.  The pygame surfaces and
fonts are pure rendering resources with no bearing on the physics state and
are not modelled; `width`/`height` are kept because `center` and
`orbit_radius` derive from them. -/
structure Visualizer where
  width : ℕ
  height : ℕ
  screenshot_mode : Bool
  orbs : List Orb
  trails : List (List TrailPoint)
  time : ℝ
  selection_pulse : ℝ
  glow_intensity : ℝ
  fade_alpha : ℤ

/-- `self.center = (width // 2, height // 2)` (line 12, Python floor division). -/
noncomputable def Visualizer.center (v : Visualizer) : ℝ × ℝ :=
  (((v.width / 2 : ℕ) : ℝ), ((v.height / 2 : ℕ) : ℝ))

/-- `self.orbit_radius = min(width, height) // 4` (line 20). -/
noncomputable def Visualizer.orbit_radius (v : Visualizer) : ℝ :=
  ((min v.width v.height / 4 : ℕ) : ℝ)

/-- `self.max_deviation = self.orbit_radius * 1.5` (line 25). -/
noncomputable def Visualizer.max_deviation (v : Visualizer) : ℝ :=
  v.orbit_radius * 1.5

/-- One entry of the orb-initialiser comprehension (lines 30-33). -/
noncomputable def initOrb (color : ℕ × ℕ × ℕ) (angle : ℝ) : Orb :=
  { color := color, angle := angle, deviation := 0, radial_velocity := 0,
    angular_velocity := base_speed, x_velocity := 0, y_velocity := 0 }

/-- `Visualizer.__init__(width, height)` (lines 9-53), restricted to the
modelled fields. -/
noncomputable def Visualizer.init (width height : ℕ) : Visualizer :=
  { width := width
    height := height
    screenshot_mode := false
    orbs := [initOrb (80, 180, 255) 0,
             initOrb (255, 80, 150) (2 * π / 5),
             initOrb (255, 200, 80) (4 * π / 5),
             initOrb (200, 255, 80) (6 * π / 5),
             initOrb (230, 130, 255) (8 * π / 5)]
    trails := List.replicate 5 []
    time := 0
    selection_pulse := 0
    glow_intensity := 0
    fade_alpha := 255 }

/-- `math.atan2(y, x)`, with the same value on every input (including
`atan2(0, 0) = 0`) as `Complex.arg`. -/
noncomputable def atan2 (y x : ℝ) : ℝ := Complex.arg ⟨x, y⟩

/-- Python's `%` on floats: `x - y * math.floor(x / y)`. -/
noncomputable def pymod (x y : ℝ) : ℝ := x - y * ((⌊x / y⌋ : ℤ) : ℝ)

/-- The loop body of `update` for a single orb (lines 68-101), producing the
updated orb and the trail point appended for it.  `dx`, `dy`, `dist` are
hoisted out of the `intensity > 0` guard (they are pure); the division by a
zero `dist` inside that guard raises `ZeroDivisionError` in Python and is
modelled by `.error ()`. -/
noncomputable def orbStep (center : ℝ × ℝ) (orbit_radius intensity : ℝ) (orb : Orb) :
    Except Unit (Orb × TrailPoint) :=
  let angle := orb.angle + orb.angular_velocity
  let radius := orbit_radius + orb.deviation
  let current_x := center.1 + Real.cos angle * radius
  let current_y := center.2 + Real.sin angle * radius
  let dx := center.1 - current_x
  let dy := center.2 - current_y
  let dist := Real.sqrt (dx * dx + dy * dy)
  if intensity > 0 ∧ dist = 0 then .error () else
  let x_velocity :=
    if intensity > 0 then orb.x_velocity + dx / dist * (attraction_strength * intensity)
    else orb.x_velocity
  let y_velocity :=
    if intensity > 0 then orb.y_velocity + dy / dist * (attraction_strength * intensity)
    else orb.y_velocity
  let px := current_x + x_velocity
  let py := current_y + y_velocity
  let new_angle := atan2 (py - center.2) (px - center.1)
  let new_radius := Real.sqrt ((px - center.1) ^ 2 + (py - center.2) ^ 2)
  let deviation := new_radius - orbit_radius
  let xv := x_velocity * damping
  let yv := y_velocity * damping
  if |deviation| > 0 then
    let return_force := -spring_constant * deviation
    let rv := orb.radial_velocity + return_force
    .ok ({ orb with
            angle := new_angle
            deviation := deviation + rv
            radial_velocity := rv * damping
            x_velocity := xv
            y_velocity := yv },
         (px, py, intensity))
  else
    .ok ({ orb with
            angle := new_angle
            deviation := deviation
            x_velocity := xv
            y_velocity := yv },
         (px, py, intensity))

/-- The divisor `dist = math.sqrt(dx*dx + dy*dy)` computed in the attraction
branch of `update` (line 78) for a given orb: the distance from the orb's
current position (after the angular advance, line 69) to the center. -/
noncomputable def centerDist (center : ℝ × ℝ) (orbit_radius : ℝ) (orb : Orb) : ℝ :=
  let angle := orb.angle + orb.angular_velocity
  let radius := orbit_radius + orb.deviation
  let current_x := center.1 + Real.cos angle * radius
  let current_y := center.2 + Real.sin angle * radius
  let dx := center.1 - current_x
  let dy := center.2 - current_y
  Real.sqrt (dx * dx + dy * dy)

/-- The `for i, orb in enumerate(self.orbs)` loop (lines 68-101): steps each
orb in order, appending one trail point per completed orb.  On a
`ZeroDivisionError` the partially updated lists are returned in the error,
matching Python's in-place mutation up to the raise. -/
noncomputable def orbsLoop (center : ℝ × ℝ) (orbit_radius intensity : ℝ) :
    List Orb → List (List TrailPoint) →
    Except (List Orb × List (List TrailPoint)) (List Orb × List (List TrailPoint))
  | [], trails => .ok ([], trails)
  | orb :: rest, trails =>
    match orbStep center orbit_radius intensity orb with
    | .error _ => .error (orb :: rest, trails)
    | .ok (orb1, point) =>
      match orbsLoop center orbit_radius intensity rest trails.tail with
      | .error (rest1, trails1) =>
        .error (orb1 :: rest1, (trails.headD [] ++ [point]) :: trails1)
      | .ok (rest1, trails1) =>
        .ok (orb1 :: rest1, (trails.headD [] ++ [point]) :: trails1)

/-- `Visualizer.update(audio_data, category)` (lines 58-104).  `.ok` is a
normal return (including the early `return` for falsy `audio_data`);
`.error` carries the state as mutated up to an uncaught `ZeroDivisionError`. -/
noncomputable def Visualizer.update (v : Visualizer) (audio_data : Option AudioData)
    (_category : String) : Except Visualizer Visualizer :=
  if audioTruthy audio_data then
    let a := audio_data.getD { intensity := none, has_recent_peak := none }
    let intensity := a.intensity.getD 0
    let _has_peak := a.has_recent_peak.getD false
    let glow := min 1.0 (v.glow_intensity + intensity * 0.5) * 0.95
    match orbsLoop v.center v.orbit_radius intensity v.orbs v.trails with
    | .error (orbs1, trails1) =>
      .error { v with glow_intensity := glow, orbs := orbs1, trails := trails1 }
    | .ok (orbs1, trails1) =>
      .ok { v with
            glow_intensity := glow
            orbs := orbs1
            trails := trails1
            time := v.time + 0.016
            selection_pulse := pymod (v.selection_pulse + 0.05) (2 * π) }
  else .ok v

/-- `toggle_screenshot_mode` (lines 55-56). -/
def Visualizer.toggle_screenshot_mode (v : Visualizer) : Visualizer :=
  { v with screenshot_mode := !v.screenshot_mode }

/-- `handle_click(pos)` (lines 227-230). -/
def Visualizer.handle_click (v : Visualizer) (pos : ℤ × ℤ) : Option String :=
  if back_button.collidepoint pos && !v.screenshot_mode then some "selection"
  else none

/-- `reset()` (lines 232-245); the surface fills touch no modelled state. -/
noncomputable def Visualizer.reset (v : Visualizer) : Visualizer :=
  { v with
    orbs := v.orbs.map fun orb =>
      { orb with deviation := 0, radial_velocity := 0, x_velocity := 0, y_velocity := 0 }
    glow_intensity := 0
    fade_alpha := 255
    screenshot_mode := false
    trails := List.replicate v.orbs.length [] }

/-- `draw_stored_pattern(screen, pattern)` (lines 247-251).  `pattern` is
`some ts` when it is a dict containing a `'trails'` key holding `ts`, and
`none` otherwise.  The second component records the trail history passed to
`draw_trails` (`none` when nothing is rendered); `draw_trails` itself only
writes pixels to scratch surfaces. -/
def Visualizer.draw_stored_pattern (v : Visualizer)
    (pattern : Option (List (List TrailPoint))) :
    Visualizer × Option (List (List TrailPoint)) :=
  match pattern with
  | some ts => ({ v with trails := List.replicate v.orbs.length [] }, some ts)
  | none => (v, none)

/-- A sequence of `update` calls, one per list entry; an uncaught exception
aborts the run, leaving the state mutated up to the raise. -/
noncomputable def runUpdates (category : String) (v : Visualizer) :
    List (Option AudioData) → Except Visualizer Visualizer
  | [] => .ok v
  | a :: rest =>
    match v.update a category with
    | .ok w => runUpdates category w rest
    | .error w => .error w

/-- The state carried by either outcome (Python's object state after the call,
whether it returned or raised). -/
def resultState : Except Visualizer Visualizer → Visualizer
  | .ok w => w
  | .error w => w

/-- Whether the call returned normally. -/
def isOk : Except Visualizer Visualizer → Bool
  | .ok _ => true
  | .error _ => false

/-- Pointwise effect of one orb-loop pass on the trails list: the `k`-th point
produced by the loop is appended to the `k`-th trail. -/
def appendTrails : List TrailPoint → List (List TrailPoint) → List (List TrailPoint)
  | [], ts => ts
  | p :: ps, ts => (ts.headD [] ++ [p]) :: appendTrails ps ts.tail

/-- The value of a successful `orbStep` (extraction wrapper; meaningful only
when `orbStep` does not raise). -/
noncomputable def orbStepOk (center : ℝ × ℝ) (orbit_radius intensity : ℝ) (orb : Orb) :
    Orb × TrailPoint :=
  ((orbStep center orbit_radius intensity orb).toOption).getD (orb, (0, 0, 0))

/-- The wrapped representative of an angle in `(-π, π]`; this is the value
`math.atan2` re-derives (line 87) for a point at that polar angle and a
positive radius. -/
noncomputable def wrapAngle (θ : ℝ) : ℝ := toIocMod Real.two_pi_pos (-π) θ

/-- The action of one `update` pass on the `(deviation, radial_velocity)`
pair of an orb whose Cartesian velocities are zero (lines 87-99 specialised:
`new_radius = |orbit_radius + deviation|`, then the spring branch). -/
noncomputable def radialStep (orbit_radius : ℝ) (p : ℝ × ℝ) : ℝ × ℝ :=
  let deviation := |orbit_radius + p.1| - orbit_radius
  if |deviation| > 0 then
    let rv := p.2 + -spring_constant * deviation
    (deviation + rv, rv * damping)
  else (deviation, p.2)

/-- Quadratic Lyapunov form for the spring dynamics: it contracts by exactly
the factor `damping = 0.98` under each (non-degenerate) `radialStep`. -/
noncomputable def lyap (p : ℝ × ℝ) : ℝ :=
  49 * p.1 ^ 2 + 50 * p.1 * p.2 + 5000 * p.2 ^ 2

/-- A fresh 400×400 instance whose first orb has been radially perturbed to
deviation 50 with all velocities zero — the kind of state an audio impulse
leaves behind, used to exercise the spring-return dynamics. -/
noncomputable def perturbedViz : Visualizer :=
  { Visualizer.init 400 400 with
    orbs := { initOrb (80, 180, 255) 0 with deviation := 50 } ::
      (Visualizer.init 400 400).orbs.tail }

section Helpers

lemma orbStep_exists_ok (c : ℝ × ℝ) (R i : ℝ) (o : Orb) (hi : i ≤ 0) :
    ∃ x, orbStep c R i o = .ok x := by
  have hni : ¬ i > 0 := not_lt.mpr hi
  unfold orbStep
  simp only [hni, false_and, if_false]
  split
  · exact ⟨_, rfl⟩
  · exact ⟨_, rfl⟩

lemma orbStep_isOk_of_nonpos (c : ℝ × ℝ) (R i : ℝ) (o : Orb) (hi : i ≤ 0) :
    orbStep c R i o = .ok (orbStepOk c R i o) := by
  obtain ⟨x, hx⟩ := orbStep_exists_ok c R i o hi
  unfold orbStepOk
  rw [hx]
  rfl

lemma orbsLoop_of_nonpos (c : ℝ × ℝ) (R i : ℝ) (hi : i ≤ 0) :
    ∀ (os : List Orb) (ts : List (List TrailPoint)),
      orbsLoop c R i os ts =
        .ok (os.map (fun o => (orbStepOk c R i o).1),
             appendTrails (os.map (fun o => (orbStepOk c R i o).2)) ts)
  | [], ts => by simp [orbsLoop, appendTrails]
  | o :: os, ts => by
    rw [orbsLoop, orbStep_isOk_of_nonpos c R i o hi,
      orbsLoop_of_nonpos c R i hi os ts.tail]
    simp [appendTrails]

lemma update_ok_of_nonpos (v : Visualizer) (a : Option AudioData) (cat : String)
    (ha : audioTruthy a = true) (hi : frameIntensity a ≤ 0) :
    v.update a cat =
      .ok { v with
            glow_intensity := min 1.0 (v.glow_intensity + frameIntensity a * 0.5) * 0.95
            orbs := v.orbs.map
              (fun o => (orbStepOk v.center v.orbit_radius (frameIntensity a) o).1)
            trails := appendTrails
              (v.orbs.map
                (fun o => (orbStepOk v.center v.orbit_radius (frameIntensity a) o).2))
              v.trails
            time := v.time + 0.016
            selection_pulse := pymod (v.selection_pulse + 0.05) (2 * π) } := by
  unfold Visualizer.update
  rw [if_pos ha]
  simp only [frameIntensity] at hi ⊢
  rw [orbsLoop_of_nonpos _ _ _ hi]

end Helpers

/-- C7: `handle_click(pos)` returns the selection signal iff `pos` lies in the
back button's fixed hit rectangle (the 40×40 pygame rect at (20,20), i.e.
`[20,60) × [20,60)`, right/bottom edges excluded) and screenshot mode is off;
in particular `(40,40)` yields the signal exactly when screenshot mode is off,
and `(500,500)` never yields a signal. -/
theorem handle_click_selection_iff :
    (∀ (v : Visualizer) (pos : ℤ × ℤ),
        v.handle_click pos = some "selection" ↔
          (20 ≤ pos.1 ∧ pos.1 < 60 ∧ 20 ≤ pos.2 ∧ pos.2 < 60 ∧
            v.screenshot_mode = false))
    ∧ (∀ v : Visualizer,
        (v.handle_click (40, 40) = some "selection" ↔ v.screenshot_mode = false))
    ∧ (∀ v : Visualizer, v.handle_click (500, 500) = none) := by
  have key : ∀ (v : Visualizer) (pos : ℤ × ℤ),
      v.handle_click pos = some "selection" ↔
        (20 ≤ pos.1 ∧ pos.1 < 60 ∧ 20 ≤ pos.2 ∧ pos.2 < 60 ∧
          v.screenshot_mode = false) := by
    intro v pos
    unfold Visualizer.handle_click back_button Rect.collidepoint
    cases hsm : v.screenshot_mode with
    | false =>
      simp only [Bool.not_false, Bool.and_true]
      by_cases hc : ((20:ℤ) ≤ pos.1 ∧ pos.1 < 20 + 40 ∧ 20 ≤ pos.2 ∧ pos.2 < 20 + 40)
      · rw [if_pos (decide_eq_true hc)]
        constructor
        · intro _
          exact ⟨hc.1, by omega, hc.2.2.1, by omega, by trivial⟩
        · intro _
          rfl
      · rw [if_neg (by simpa using hc)]
        constructor
        · intro h
          simp at h
        · rintro ⟨h1, h2, h3, h4, -⟩
          exact absurd ⟨h1, by omega, h3, by omega⟩ hc
    | true =>
      rw [if_neg (by simp)]
      constructor
      · intro h
        simp at h
      · rintro ⟨-, -, -, -, h5⟩
        exact Bool.noConfusion h5
  refine ⟨key, fun v => ?_, fun v => ?_⟩
  · rw [key v (40, 40)]
    norm_num
  · have hcol : back_button.collidepoint (500, 500) = false := by decide
    simp [Visualizer.handle_click, hcol]

/-- C10: `draw_stored_pattern` leaves the trail state unchanged and renders
nothing when the pattern is not a dict containing a `'trails'` key; when it
is, it renders exactly the stored trails once and afterwards leaves every
orb's trail empty, whatever the trails held before the call. -/
theorem draw_stored_pattern_trail_state (v : Visualizer) :
    v.draw_stored_pattern none = (v, none) ∧
    ∀ ts : List (List TrailPoint),
      (v.draw_stored_pattern (some ts)).2 = some ts ∧
      (v.draw_stored_pattern (some ts)).1.trails = List.replicate v.orbs.length [] ∧
      ∀ t ∈ (v.draw_stored_pattern (some ts)).1.trails, t = ([] : List TrailPoint) := by
  refine ⟨rfl, fun ts => ⟨rfl, rfl, fun t ht => ?_⟩⟩
  exact List.eq_of_mem_replicate ht

/-- C8 counterexample: a *present* audio frame that is an empty dict (both
fields missing) is falsy in Python, so `update` returns immediately instead
of proceeding with the defaulted values — while a frame with the defaults
filled in (`intensity=0`, `has_recent_peak=False`) does proceed and produces
a different state (the `time` accumulator advances). -/
theorem update_empty_frame_cex :
    (Visualizer.init 400 400).update
        (some { intensity := none, has_recent_peak := none }) "sleep" =
      .ok (Visualizer.init 400 400) ∧
    (Visualizer.init 400 400).update
        (some { intensity := some 0, has_recent_peak := some false }) "sleep" ≠
      .ok (Visualizer.init 400 400) := by
  constructor
  · simp [Visualizer.update, audioTruthy]
  · intro h
    rw [update_ok_of_nonpos (Visualizer.init 400 400)
      (some { intensity := some 0, has_recent_peak := some false }) "sleep"
      (by rfl) (by norm_num [frameIntensity])] at h
    have heq := Except.ok.inj h
    have ht : (Visualizer.init 400 400).time + 0.016 = (Visualizer.init 400 400).time :=
      congrArg Visualizer.time heq
    norm_num [Visualizer.init] at ht

/-- C8 (amended): absent audio (`None`) and a present-but-empty audio dict
are both falsy, so `update` returns immediately with the state unchanged; a
present audio frame with at least one field set proceeds, and its missing
fields behave exactly as if they were present with the default values
0 / False. -/
theorem update_missing_fields_default (v : Visualizer) (cat : String) :
    v.update none cat = .ok v ∧
    v.update (some { intensity := none, has_recent_peak := none }) cat = .ok v ∧
    ∀ a : AudioData, audioTruthy (some a) = true →
      v.update (some a) cat =
        v.update (some { intensity := some (a.intensity.getD 0),
                         has_recent_peak := some (a.has_recent_peak.getD false) }) cat := by
  refine ⟨by simp [Visualizer.update, audioTruthy],
          by simp [Visualizer.update, audioTruthy], fun a ha => ?_⟩
  unfold Visualizer.update
  rw [if_pos ha, if_pos (by simp [audioTruthy])]
  simp

/-- Witness for `update_missing_fields_default`: a frame whose only field is
`has_recent_peak` is truthy, and updating with it equals updating with the
defaults filled in. -/
theorem update_missing_fields_default_witness :
    audioTruthy (some { intensity := none, has_recent_peak := some true }) = true ∧
    (Visualizer.init 400 400).update
        (some { intensity := none, has_recent_peak := some true }) "sleep" =
      (Visualizer.init 400 400).update
        (some { intensity := some 0, has_recent_peak := some true }) "sleep" := by
  refine ⟨rfl, ?_⟩
  have h := (update_missing_fields_default (Visualizer.init 400 400) "sleep").2.2
    { intensity := none, has_recent_peak := some true } rfl
  simpa using h

/-- C9 counterexample: two present frames agreeing on intensity (absent in
both, hence 0) but differing on `has_recent_peak` (absent → False vs True)
give different states: the empty dict is falsy so `update` is a no-op, while
the peak-only dict is truthy and advances the state. -/
theorem peak_flag_cex :
    (Visualizer.init 400 400).update
        (some { intensity := none, has_recent_peak := none }) "sleep" ≠
      (Visualizer.init 400 400).update
        (some { intensity := none, has_recent_peak := some true }) "sleep" := by
  intro h
  rw [update_ok_of_nonpos (Visualizer.init 400 400)
      (some { intensity := none, has_recent_peak := some true }) "sleep"
      (by rfl) (by norm_num [frameIntensity])] at h
  have h0 : (Visualizer.init 400 400).update
      (some { intensity := none, has_recent_peak := none }) "sleep" =
      .ok (Visualizer.init 400 400) := by
    simp [Visualizer.update, audioTruthy]
  rw [h0] at h
  have heq := Except.ok.inj h
  have ht : (Visualizer.init 400 400).time = (Visualizer.init 400 400).time + 0.016 :=
    congrArg Visualizer.time heq
  norm_num [Visualizer.init] at ht

/-- C9 (amended): for two *truthy* (nonempty) present frames that agree on
the intensity field, `update` produces identical results whatever their
`has_recent_peak` fields are — the peak flag is read but never used. -/
theorem peak_flag_no_physics_influence (v : Visualizer) (cat : String)
    (i : Option ℝ) (p q : Option Bool)
    (hp : audioTruthy (some { intensity := i, has_recent_peak := p }) = true)
    (hq : audioTruthy (some { intensity := i, has_recent_peak := q }) = true) :
    v.update (some { intensity := i, has_recent_peak := p }) cat =
      v.update (some { intensity := i, has_recent_peak := q }) cat := by
  unfold Visualizer.update
  rw [if_pos hp, if_pos hq]
  rfl

/-- Witness for `peak_flag_no_physics_influence` at concrete truthy frames. -/
theorem peak_flag_no_physics_influence_witness :
    (Visualizer.init 400 400).update
        (some { intensity := some 1, has_recent_peak := some false }) "study" =
      (Visualizer.init 400 400).update
        (some { intensity := some 1, has_recent_peak := some true }) "study" :=
  peak_flag_no_physics_influence (Visualizer.init 400 400) "study"
    (some 1) (some false) (some true) rfl rfl

section AngleHelpers

lemma atan2_sin_cos_wrap {r : ℝ} (hr : 0 < r) (θ : ℝ) :
    atan2 (Real.sin θ * r) (Real.cos θ * r) = wrapAngle θ := by
  unfold atan2 wrapAngle
  rw [Complex.mk_eq_add_mul_I]
  have hc : ((Real.cos θ * r : ℝ) : ℂ) + ((Real.sin θ * r : ℝ) : ℂ) * Complex.I =
      (r : ℂ) * (Complex.cos θ + Complex.sin θ * Complex.I) := by
    rw [← Complex.ofReal_cos, ← Complex.ofReal_sin]
    push_cast
    ring
  rw [hc, Complex.arg_mul_cos_add_sin_mul_I_eq_toIocMod hr θ]

lemma wrapAngle_add_left (x y : ℝ) : wrapAngle (wrapAngle x + y) = wrapAngle (x + y) := by
  unfold wrapAngle
  rw [eq_sub_of_add_eq (toIocMod_add_toIocDiv_zsmul Real.two_pi_pos (-π) x),
    sub_add_eq_add_sub, toIocMod_sub_zsmul]

lemma radialStep_zero_dev (R u : ℝ) (hR : 0 ≤ R) : radialStep R (0, u) = (0, u) := by
  unfold radialStep
  simp [abs_of_nonneg hR]

lemma orbStep_zero_vel (c : ℝ × ℝ) (R i : ℝ) (o : Orb) (hi : i ≤ 0)
    (hxv : o.x_velocity = 0) (hyv : o.y_velocity = 0) :
    orbStep c R i o =
      .ok ({ o with
              angle := atan2 (Real.sin (o.angle + o.angular_velocity) * (R + o.deviation))
                             (Real.cos (o.angle + o.angular_velocity) * (R + o.deviation))
              deviation := (radialStep R (o.deviation, o.radial_velocity)).1
              radial_velocity := (radialStep R (o.deviation, o.radial_velocity)).2 },
           (c.1 + Real.cos (o.angle + o.angular_velocity) * (R + o.deviation),
            c.2 + Real.sin (o.angle + o.angular_velocity) * (R + o.deviation), i)) := by
  have hni : ¬ i > 0 := not_lt.mpr hi
  have hsq : ∀ α : ℝ, (Real.cos α * (R + o.deviation)) ^ 2 +
      (Real.sin α * (R + o.deviation)) ^ 2 = (R + o.deviation) ^ 2 := by
    intro α
    nlinarith [Real.sin_sq_add_cos_sq α]
  unfold orbStep
  simp only [hni, false_and, if_false, hxv, hyv, add_zero, add_sub_cancel_left]
  rw [hsq, Real.sqrt_sq_eq_abs]
  unfold radialStep
  obtain ⟨col, ang, dev, rv, av, xv, yv⟩ := o
  simp only at hxv hyv
  subst hxv hyv
  split
  · rename_i h
    simp only
    norm_num
    have hne : ¬ |R + dev| - R = 0 := by
      intro h0
      rw [h0] at h
      norm_num at h
    rw [if_neg hne]
    exact ⟨rfl, rfl⟩
  · rename_i h
    simp only
    norm_num
    have he : |R + dev| - R = 0 := by
      by_contra h0
      exact h (abs_pos.mpr h0)
    rw [if_pos he]
    exact ⟨rfl, rfl⟩

lemma orbStep_zero_dev (c : ℝ × ℝ) (R i : ℝ) (o : Orb) (hR : 0 < R) (hi : i ≤ 0)
    (hdev : o.deviation = 0) (hxv : o.x_velocity = 0) (hyv : o.y_velocity = 0) :
    orbStep c R i o =
      .ok ({ o with angle := wrapAngle (o.angle + o.angular_velocity) },
           (c.1 + Real.cos (o.angle + o.angular_velocity) * R,
            c.2 + Real.sin (o.angle + o.angular_velocity) * R, i)) := by
  rw [orbStep_zero_vel c R i o hi hxv hyv, hdev, add_zero,
    atan2_sin_cos_wrap hR, radialStep_zero_dev R o.radial_velocity hR.le]

end AngleHelpers

/-- C3: in the attraction branch of `update`, the distance from the orb's
current position to the center is used as a divisor with no guard: the step
raises (only) when `intensity > 0` and that distance is zero — there is no
error branch handling the zero-distance case, and for positive intensity the
step is well-defined exactly under the precondition that the distance is
nonzero. -/
theorem attraction_div_by_zero_unguarded (c : ℝ × ℝ) (R i : ℝ) (o : Orb) :
    orbStep c R i o = .error () ↔ 0 < i ∧ centerDist c R o = 0 := by
  have hne : ∀ (P : Prop) (inst : Decidable P) (A B : Orb × TrailPoint),
      (if P then (Except.ok A : Except Unit (Orb × TrailPoint)) else Except.ok B) ≠
        Except.error () := by
    intro P inst A B
    split <;> exact fun h => Except.noConfusion h
  simp only [orbStep, centerDist]
  split
  · rename_i h
    exact iff_of_true rfl h
  · rename_i h
    constructor
    · intro hc
      exact absurd hc (hne _ _ _ _)
    · intro hc
      exact absurd hc h

lemma update_all_zero_dev (v : Visualizer) (a : Option AudioData) (cat : String)
    (ha : audioTruthy a = true) (hi : frameIntensity a = 0)
    (hR : 0 < v.orbit_radius)
    (horbs : ∀ o ∈ v.orbs, o.deviation = 0 ∧ o.x_velocity = 0 ∧ o.y_velocity = 0) :
    ∃ w, v.update a cat = .ok w ∧
      w.orbs = v.orbs.map
        (fun o => { o with angle := wrapAngle (o.angle + o.angular_velocity) }) ∧
      w.width = v.width ∧ w.height = v.height := by
  refine ⟨_, update_ok_of_nonpos v a cat ha (le_of_eq hi), ?_, rfl, rfl⟩
  simp only
  apply List.map_congr_left
  intro o ho
  obtain ⟨hdev, hxv, hyv⟩ := horbs o ho
  have h := orbStep_zero_dev v.center v.orbit_radius (frameIntensity a) o hR
    (le_of_eq hi) hdev hxv hyv
  rw [orbStepOk, h]
  rfl

lemma runUpdates_zero_dev (cat : String) (a : Option AudioData)
    (ha : audioTruthy a = true) (hi : frameIntensity a = 0) :
    ∀ (n : ℕ) (v : Visualizer), 0 < v.orbit_radius →
      (∀ o ∈ v.orbs, o.deviation = 0 ∧ o.x_velocity = 0 ∧ o.y_velocity = 0) →
      isOk (runUpdates cat v (List.replicate n a)) = true ∧
      (resultState (runUpdates cat v (List.replicate n a))).orbs =
        (if n = 0 then v.orbs else
          v.orbs.map (fun o =>
            { o with angle := wrapAngle (o.angle + n * o.angular_velocity) }))
  | 0, v, _, _ => by simp [runUpdates, resultState, isOk]
  | Nat.succ n, v, hR, horbs => by
    obtain ⟨w, hw, hworbs, hww, hwh⟩ := update_all_zero_dev v a cat ha hi hR horbs
    have hwR : 0 < w.orbit_radius := by
      unfold Visualizer.orbit_radius at hR ⊢
      rw [hww, hwh]
      exact hR
    have hworbs2 : ∀ o ∈ w.orbs, o.deviation = 0 ∧ o.x_velocity = 0 ∧ o.y_velocity = 0 := by
      rw [hworbs]
      intro o ho
      rw [List.mem_map] at ho
      obtain ⟨o0, ho0, rfl⟩ := ho
      exact horbs o0 ho0
    have IH := runUpdates_zero_dev cat a ha hi n w hwR hworbs2
    rw [List.replicate_succ, runUpdates, hw]
    refine ⟨IH.1, ?_⟩
    rw [IH.2, hworbs]
    cases n with
    | zero =>
      simp only [if_pos rfl, if_neg (Nat.succ_ne_zero 0)]
      apply List.map_congr_left
      intro o _
      norm_num
    | succ m =>
      rw [if_neg (Nat.succ_ne_zero m), if_neg (Nat.succ_ne_zero (m + 1)), List.map_map]
      apply List.map_congr_left
      intro o _
      obtain ⟨col, ang, dev, rv, av, xv, yv⟩ := o
      simp only [Function.comp_apply]
      rw [Orb.mk.injEq]
      refine ⟨rfl, ?_, rfl, rfl, rfl, rfl, rfl⟩
      rw [wrapAngle_add_left]
      congr 1
      push_cast
      ring

/-- C1 (amended): with `intensity = 0` across `N` consecutive `update` calls
from zero deviation and zero Cartesian velocities (and a positive orbit
radius), every orb's angle advances by `angular_velocity` each frame but is
then re-derived through `atan2` (line 87), which wraps it into `(-π, π]`: for
`N ≥ 1` the final angle is the wrapped representative of
`initialAngle + N·angularVelocity` (equal to it only modulo `2π`), while
deviation and the Cartesian velocities stay `0`.  The raw unwrapped sum
claimed by the spec is *not* what the code computes (see the
counterexample). -/
theorem update_wraps_angle (cat : String) (a : Option AudioData) (v : Visualizer)
    (n : ℕ) (ha : audioTruthy a = true) (hi : frameIntensity a = 0)
    (hR : 0 < v.orbit_radius)
    (horbs : ∀ o ∈ v.orbs, o.deviation = 0 ∧ o.x_velocity = 0 ∧ o.y_velocity = 0) :
    isOk (runUpdates cat v (List.replicate n a)) = true ∧
    ∀ j, (hj : j < v.orbs.length) →
      ((resultState (runUpdates cat v (List.replicate n a))).orbs.getD j dummyOrb).deviation
          = 0 ∧
      ((resultState (runUpdates cat v (List.replicate n a))).orbs.getD j dummyOrb).x_velocity
          = 0 ∧
      ((resultState (runUpdates cat v (List.replicate n a))).orbs.getD j dummyOrb).y_velocity
          = 0 ∧
      ((resultState (runUpdates cat v (List.replicate n a))).orbs.getD j dummyOrb).angle =
        (if n = 0 then (v.orbs.getD j dummyOrb).angle
         else wrapAngle ((v.orbs.getD j dummyOrb).angle
                + n * (v.orbs.getD j dummyOrb).angular_velocity)) := by
  obtain ⟨hok, horbseq⟩ := runUpdates_zero_dev cat a ha hi n v hR horbs
  refine ⟨hok, fun j hj => ?_⟩
  rw [horbseq]
  cases hn : n with
  | zero =>
    simp only [if_pos rfl]
    have hmem : v.orbs.getD j dummyOrb ∈ v.orbs := by
      rw [List.getD_eq_getElem v.orbs dummyOrb hj]
      exact List.getElem_mem hj
    obtain ⟨hd, hx, hy⟩ := horbs _ hmem
    exact ⟨hd, hx, hy, rfl⟩
  | succ m =>
    have hlen : j < (v.orbs.map (fun o =>
        { o with angle := wrapAngle (o.angle + (m + 1 : ℕ) * o.angular_velocity) })).length := by
      simpa using hj
    rw [if_neg (Nat.succ_ne_zero m), if_neg (Nat.succ_ne_zero m),
      List.getD_eq_getElem _ dummyOrb hlen, List.getElem_map,
      List.getD_eq_getElem v.orbs dummyOrb hj]
    have hmem : v.orbs[j] ∈ v.orbs := List.getElem_mem hj
    obtain ⟨hd, hx, hy⟩ := horbs _ hmem
    exact ⟨hd, hx, hy, rfl⟩

lemma wrap_c1_value : wrapAngle (6 * π / 5 + 0.001) = 6 * π / 5 + 0.001 - 2 * π := by
  unfold wrapAngle
  rw [toIocMod_eq_iff]
  refine ⟨Set.mem_Ioc.mpr ⟨by nlinarith [Real.pi_pos], by nlinarith [Real.pi_gt_three]⟩,
    1, ?_⟩
  rw [one_zsmul]
  ring

/-- C1 counterexample: on a fresh 400×400 instance, one `update` with
intensity 0 sends the fourth orb's angle (initially `6π/5`) to
`6π/5 + 0.001 - 2π` — the `atan2` re-derivation wraps it — and not to the
claimed `6π/5 + 1·angularVelocity`. -/
theorem angle_no_wrap_cex :
    ((resultState (runUpdates "sleep" (Visualizer.init 400 400)
        (List.replicate 1 (some { intensity := some 0, has_recent_peak := none })))).orbs.getD
          3 dummyOrb).angle ≠
      ((Visualizer.init 400 400).orbs.getD 3 dummyOrb).angle + (1 : ℕ) * base_speed := by
  have hR : 0 < (Visualizer.init 400 400).orbit_radius := by
    norm_num [Visualizer.orbit_radius, Visualizer.init]
  have horbs : ∀ o ∈ (Visualizer.init 400 400).orbs,
      o.deviation = 0 ∧ o.x_velocity = 0 ∧ o.y_velocity = 0 := by
    intro o ho
    simp only [Visualizer.init, List.mem_cons, List.mem_singleton, List.not_mem_nil,
      or_false] at ho
    rcases ho with rfl | rfl | rfl | rfl | rfl <;> exact ⟨rfl, rfl, rfl⟩
  obtain ⟨-, horbseq⟩ := runUpdates_zero_dev "sleep"
    (some { intensity := some 0, has_recent_peak := none }) rfl
    (by norm_num [frameIntensity]) 1 (Visualizer.init 400 400) hR horbs
  rw [horbseq]
  norm_num [Visualizer.init, initOrb, base_speed]
  have wv := wrap_c1_value
  norm_num at wv
  rw [wv]
  intro h
  have := Real.pi_pos
  linarith

/-- Witness for `update_wraps_angle` on a fresh 400×400 instance, one frame. -/
theorem update_wraps_angle_witness :
    isOk (runUpdates "sleep" (Visualizer.init 400 400)
      (List.replicate 1 (some { intensity := some 0, has_recent_peak := none }))) = true := by
  have horbs : ∀ o ∈ (Visualizer.init 400 400).orbs,
      o.deviation = 0 ∧ o.x_velocity = 0 ∧ o.y_velocity = 0 := by
    intro o ho
    simp only [Visualizer.init, List.mem_cons, List.mem_singleton, List.not_mem_nil,
      or_false] at ho
    rcases ho with rfl | rfl | rfl | rfl | rfl <;> exact ⟨rfl, rfl, rfl⟩
  exact (update_wraps_angle "sleep" (some { intensity := some 0, has_recent_peak := none })
    (Visualizer.init 400 400) 1 rfl (by norm_num [frameIntensity])
    (by norm_num [Visualizer.orbit_radius, Visualizer.init]) horbs).1

/-- C2 counterexample: build a fresh 400×400 instance, run one intensity-0
update (which advances `time` to 0.016), then `reset()`: the `time`
accumulator — a field `__init__` sets to 0 — is left at 0.016, so the state
does not equal a freshly constructed instance. -/
theorem reset_preserves_accumulators_cex :
    ((resultState ((Visualizer.init 400 400).update
        (some { intensity := some 0, has_recent_peak := none }) "sleep")).reset).time ≠
      (Visualizer.init 400 400).time := by
  rw [update_ok_of_nonpos (Visualizer.init 400 400)
    (some { intensity := some 0, has_recent_peak := none }) "sleep" (by rfl)
    (by norm_num [frameIntensity])]
  norm_num [resultState, Visualizer.reset, Visualizer.init]

/-- C2 (amended): `reset()` restores every field it touches to its
fresh-construction value — the per-orb motion fields (deviation, radial and
Cartesian velocities), glow, fade, the screenshot flag and the trails — but
it leaves the global accumulators `time` and `selection_pulse` (and each
orb's current angle) at their pre-reset values, so the result equals a fresh
instance only in those reset components. -/
theorem reset_matches_fresh_except_accumulators (v : Visualizer)
    (hlen : v.orbs.length = 5) :
    v.reset.screenshot_mode = (Visualizer.init v.width v.height).screenshot_mode ∧
    v.reset.glow_intensity = (Visualizer.init v.width v.height).glow_intensity ∧
    v.reset.fade_alpha = (Visualizer.init v.width v.height).fade_alpha ∧
    v.reset.trails = (Visualizer.init v.width v.height).trails ∧
    List.Forall₂ (fun o o1 =>
        o1.color = o.color ∧ o1.angle = o.angle ∧
        o1.angular_velocity = o.angular_velocity ∧
        o1.deviation = 0 ∧ o1.radial_velocity = 0 ∧
        o1.x_velocity = 0 ∧ o1.y_velocity = 0)
      v.orbs v.reset.orbs ∧
    v.reset.time = v.time ∧ v.reset.selection_pulse = v.selection_pulse := by
  refine ⟨rfl, rfl, rfl, ?_, ?_, rfl, rfl⟩
  · show List.replicate v.orbs.length ([] : List TrailPoint) = List.replicate 5 []
    rw [hlen]
  · show List.Forall₂ _ v.orbs (v.orbs.map _)
    rw [List.forall₂_map_right_iff, List.forall₂_same]
    intro o _
    exact ⟨rfl, rfl, rfl, rfl, rfl, rfl, rfl⟩

/-- Witness for `reset_matches_fresh_except_accumulators` on a fresh 400×300
instance (picking out the trails and time conclusions). -/
theorem reset_matches_fresh_except_accumulators_witness :
    (Visualizer.init 400 300).orbs.length = 5 ∧
    ((Visualizer.init 400 300).reset.trails =
        (Visualizer.init (Visualizer.init 400 300).width
          (Visualizer.init 400 300).height).trails ∧
      (Visualizer.init 400 300).reset.time = (Visualizer.init 400 300).time) := by
  have h := reset_matches_fresh_except_accumulators (Visualizer.init 400 300) rfl
  exact ⟨rfl, h.2.2.2.1, h.2.2.2.2.2.1⟩

section GlowHelpers

lemma update_glow (v : Visualizer) (a : Option AudioData) (cat : String) :
    (resultState (v.update a cat)).glow_intensity =
      if audioTruthy a = true then
        min 1.0 (v.glow_intensity + frameIntensity a * 0.5) * 0.95
      else v.glow_intensity := by
  unfold Visualizer.update
  by_cases h : audioTruthy a = true
  · rw [if_pos h, if_pos h]
    cases h2 : orbsLoop v.center v.orbit_radius
        ((a.getD { intensity := none, has_recent_peak := none }).intensity.getD 0)
        v.orbs v.trails with
    | error pr =>
      obtain ⟨os1, ts1⟩ := pr
      simp only [h2, resultState, frameIntensity]
    | ok pr =>
      obtain ⟨os1, ts1⟩ := pr
      simp only [h2, resultState, frameIntensity]
  · rw [if_neg h, if_neg h]
    rfl

lemma glow_step_mem (g i : ℝ) (hg0 : 0 ≤ g) (hg1 : g ≤ 1) (hi0 : 0 ≤ i) (hi1 : i ≤ 1) :
    0 ≤ min 1.0 (g + i * 0.5) * 0.95 ∧ min 1.0 (g + i * 0.5) * 0.95 ≤ 1 := by
  constructor
  · have h1 : (0:ℝ) ≤ min 1.0 (g + i * 0.5) := le_min (by norm_num) (by linarith)
    nlinarith
  · have h2 : min 1.0 (g + i * 0.5) ≤ 1 := le_trans (min_le_left _ _) (by norm_num)
    have h1 : (0:ℝ) ≤ min 1.0 (g + i * 0.5) := le_min (by norm_num) (by linarith)
    nlinarith

end GlowHelpers

/-- C4: starting from `glow_intensity ∈ [0,1]`, for every finite sequence of
`update` calls whose (defaulted) intensities lie in `[0,1]`,
`glow_intensity` stays in `[0,1]`: each truthy call boosts it by
`0.5 × intensity` clamped to at most 1 and then decays it by 5%.  This covers
the state after every call, raising calls included, since the glow write
happens before the orb loop. -/
theorem glow_intensity_mem_unit_interval (cat : String) (v : Visualizer)
    (frames : List (Option AudioData))
    (hg0 : 0 ≤ v.glow_intensity) (hg1 : v.glow_intensity ≤ 1)
    (hint : ∀ a ∈ frames, 0 ≤ frameIntensity a ∧ frameIntensity a ≤ 1) :
    0 ≤ (resultState (runUpdates cat v frames)).glow_intensity ∧
      (resultState (runUpdates cat v frames)).glow_intensity ≤ 1 := by
  induction frames generalizing v with
  | nil => exact ⟨hg0, hg1⟩
  | cons a rest ih =>
    rw [runUpdates]
    obtain ⟨hi0, hi1⟩ := hint a (List.mem_cons_self a rest)
    cases hu : v.update a cat with
    | ok w =>
      have hglow := update_glow v a cat
      rw [hu] at hglow
      simp only [resultState] at hglow
      have hw : 0 ≤ w.glow_intensity ∧ w.glow_intensity ≤ 1 := by
        rw [hglow]
        split
        · exact glow_step_mem _ _ hg0 hg1 hi0 hi1
        · exact ⟨hg0, hg1⟩
      simp only
      exact ih w hw.1 hw.2 (fun b hb => hint b (List.mem_cons_of_mem a hb))
    | error w =>
      have hglow := update_glow v a cat
      rw [hu] at hglow
      simp only [resultState] at hglow
      simp only [resultState]
      rw [hglow]
      split
      · exact glow_step_mem _ _ hg0 hg1 hi0 hi1
      · exact ⟨hg0, hg1⟩

/-- Witness for `glow_intensity_mem_unit_interval`: fresh instance, one
intensity-1 frame. -/
theorem glow_intensity_mem_unit_interval_witness :
    0 ≤ (resultState (runUpdates "sleep" (Visualizer.init 400 400)
        [some { intensity := some 1, has_recent_peak := none }])).glow_intensity ∧
      (resultState (runUpdates "sleep" (Visualizer.init 400 400)
        [some { intensity := some 1, has_recent_peak := none }])).glow_intensity ≤ 1 := by
  apply glow_intensity_mem_unit_interval
  · norm_num [Visualizer.init]
  · norm_num [Visualizer.init]
  · intro b hb
    rw [List.mem_singleton] at hb
    subst hb
    norm_num [frameIntensity]

section TrailHelpers

lemma appendTrails_length (ps : List TrailPoint) :
    ∀ ts : List (List TrailPoint), ts.length = ps.length →
      (appendTrails ps ts).length = ps.length := by
  induction ps with
  | nil => intro ts h; simpa [appendTrails] using h
  | cons p ps ih =>
    intro ts h
    have htail : ts.tail.length = ps.length := by
      rw [List.length_tail, h]
      simp
    rw [appendTrails, List.length_cons, ih ts.tail htail]
    rfl

lemma appendTrails_getD (p0 : TrailPoint) :
    ∀ (ps : List TrailPoint) (j : ℕ), j < ps.length →
      ∀ ts : List (List TrailPoint),
        (appendTrails ps ts).getD j [] = ts.getD j [] ++ [ps.getD j p0] := by
  intro ps
  induction ps with
  | nil => intro j hj; exact absurd hj (by simp)
  | cons p ps ih =>
    intro j hj ts
    cases j with
    | zero =>
      cases ts <;> simp [appendTrails]
    | succ k =>
      rw [appendTrails]
      have hk : k < ps.length := by simpa using hj
      have := ih k hk ts.tail
      cases ts with
      | nil => simpa [List.getD] using this
      | cons t ts => simpa [List.getD] using this

lemma appendTrails_lengths (L : ℕ) :
    ∀ (ps : List TrailPoint) (ts : List (List TrailPoint)), ts.length = ps.length →
      (∀ t ∈ ts, t.length = L) →
      ∀ t ∈ appendTrails ps ts, t.length = L + 1 := by
  intro ps
  induction ps with
  | nil =>
    intro ts hlen _ t ht
    have hts : ts = [] := List.length_eq_zero.mp (by simpa using hlen)
    subst hts
    exact absurd ht (List.not_mem_nil t)
  | cons p ps ih =>
    intro ts hlen hL t ht
    cases ts with
    | nil => simp at hlen
    | cons t0 ts =>
      rw [appendTrails] at ht
      rcases List.mem_cons.mp ht with h | h
      · subst h
        simp only [List.headD_cons, List.length_append, List.length_singleton]
        rw [hL t0 (List.mem_cons_self t0 ts)]
      · exact ih ts (by simpa using hlen) (fun u hu => hL u (List.mem_cons_of_mem t0 hu))
          t (by simpa using h)

lemma orbsLoop_ok_trails (c : ℝ × ℝ) (R i : ℝ) :
    ∀ (os : List Orb) (ts ts1 : List (List TrailPoint)) (os1 : List Orb),
      orbsLoop c R i os ts = .ok (os1, ts1) →
      ∃ ps : List TrailPoint, ps.length = os.length ∧ ts1 = appendTrails ps ts ∧
        os1.length = os.length := by
  intro os
  induction os with
  | nil =>
    intro ts ts1 os1 h
    rw [orbsLoop] at h
    have h2 := Except.ok.inj h
    refine ⟨[], rfl, ?_, ?_⟩
    · rw [appendTrails, ← (Prod.mk.injEq _ _ _ _).mp h2|>.2]
    · rw [← (Prod.mk.injEq _ _ _ _).mp h2|>.1]
  | cons o os ih =>
    intro ts ts1 os1 h
    rw [orbsLoop] at h
    cases hs : orbStep c R i o with
    | error e =>
      rw [hs] at h
      exact absurd h (by simp)
    | ok op =>
      obtain ⟨o1, pt⟩ := op
      rw [hs] at h
      cases hrec : orbsLoop c R i os ts.tail with
      | error pr =>
        rw [hrec] at h
        exact absurd h (by simp)
      | ok pr =>
        obtain ⟨os2, ts2⟩ := pr
        rw [hrec] at h
        have h2 := Except.ok.inj h
        have hos := ((Prod.mk.injEq _ _ _ _).mp h2).1
        have hts := ((Prod.mk.injEq _ _ _ _).mp h2).2
        obtain ⟨ps, hlen, hts2, holen⟩ := ih ts.tail ts2 os2 hrec
        refine ⟨pt :: ps, by simp [hlen], ?_, ?_⟩
        · rw [← hts, appendTrails, hts2]
        · rw [← hos]
          simp [holen]

lemma update_ok_shape (v : Visualizer) (a : Option AudioData) (cat : String)
    (w : Visualizer) (ha : audioTruthy a = true) (h : v.update a cat = .ok w) :
    w.orbs.length = v.orbs.length ∧
    (∃ ps : List TrailPoint, ps.length = v.orbs.length ∧
      w.trails = appendTrails ps v.trails) ∧
    w.width = v.width ∧ w.height = v.height := by
  unfold Visualizer.update at h
  rw [if_pos ha] at h
  cases hl : orbsLoop v.center v.orbit_radius
      ((a.getD { intensity := none, has_recent_peak := none }).intensity.getD 0)
      v.orbs v.trails with
  | error pr =>
    obtain ⟨os1, ts1⟩ := pr
    simp only [hl] at h
    exact absurd h (by simp)
  | ok pr =>
    obtain ⟨os1, ts1⟩ := pr
    simp only [hl] at h
    obtain ⟨ps, hpl, hts, holen⟩ := orbsLoop_ok_trails _ _ _ _ _ _ _ hl
    have hw := Except.ok.inj h
    rw [← hw]
    exact ⟨holen, ⟨ps, hpl, hts⟩, rfl, rfl⟩

lemma runUpdates_trail_lengths (cat : String) :
    ∀ (frames : List (Option AudioData)) (v : Visualizer) (L : ℕ),
      (∀ a ∈ frames, audioTruthy a = true) →
      v.trails.length = v.orbs.length →
      (∀ t ∈ v.trails, t.length = L) →
      isOk (runUpdates cat v frames) = true →
      ((resultState (runUpdates cat v frames)).trails.length =
        (resultState (runUpdates cat v frames)).orbs.length ∧
       ∀ t ∈ (resultState (runUpdates cat v frames)).trails,
          t.length = L + frames.length) := by
  intro frames
  induction frames with
  | nil =>
    intro v L _ hlen hL _
    exact ⟨hlen, fun t ht => by simpa using hL t ht⟩
  | cons a rest ih =>
    intro v L htr hlen hL hok
    rw [runUpdates] at hok ⊢
    revert hok
    cases hu : v.update a cat with
    | error w =>
      intro hok
      have hok2 : isOk (Except.error w : Except Visualizer Visualizer) = true := hok
      exact absurd hok2 (by simp [isOk])
    | ok w =>
      intro hok
      have hok2 : isOk (runUpdates cat w rest) = true := hok
      obtain ⟨holen, ⟨ps, hpl, hts⟩, -, -⟩ := update_ok_shape v a cat w
        (htr a (List.mem_cons_self a rest)) hu
      have hwlen : w.trails.length = w.orbs.length := by
        rw [hts, appendTrails_length ps v.trails (hlen.trans hpl.symm), holen, hpl]
      have hwL : ∀ t ∈ w.trails, t.length = L + 1 := by
        rw [hts]
        exact appendTrails_lengths L ps v.trails (hlen.trans hpl.symm) hL
      have hres := ih w (L + 1) (fun b hb => htr b (List.mem_cons_of_mem a hb)) hwlen hwL hok2
      refine ⟨hres.1, fun t ht => ?_⟩
      have ht2 : t ∈ (resultState (runUpdates cat w rest)).trails := ht
      have hlt := hres.2 t ht2
      rw [List.length_cons]
      omega

end TrailHelpers

/-- C6: a truthy `update` call that completes appends exactly one trail point
to each orb's trail (append-only: the new trail is the old one with one point
at the end), and after `N` completing truthy calls starting from empty trails
every orb's trail has length exactly `N`; nothing ever removes points. -/
theorem update_appends_one_trail_point_per_orb (cat : String) :
    (∀ (v : Visualizer) (a : Option AudioData) (w : Visualizer),
      audioTruthy a = true → v.trails.length = v.orbs.length →
      v.update a cat = .ok w →
      ∀ j, j < v.orbs.length →
        ∃ p : TrailPoint, w.trails.getD j [] = v.trails.getD j [] ++ [p]) ∧
    (∀ (v : Visualizer) (frames : List (Option AudioData)),
      (∀ a ∈ frames, audioTruthy a = true) →
      v.trails.length = v.orbs.length →
      (∀ t ∈ v.trails, t = ([] : List TrailPoint)) →
      isOk (runUpdates cat v frames) = true →
      ∀ t ∈ (resultState (runUpdates cat v frames)).trails,
        t.length = frames.length) := by
  constructor
  · intro v a w ha hlen hu j hj
    obtain ⟨-, ⟨ps, hpl, hts⟩, -, -⟩ := update_ok_shape v a cat w ha hu
    refine ⟨ps.getD j (0, 0, 0), ?_⟩
    rw [hts, appendTrails_getD (0, 0, 0) ps j (by rw [hpl]; exact hj) v.trails]
  · intro v frames htr hlen hempty hok
    have h := runUpdates_trail_lengths cat frames v 0 htr hlen
      (fun t ht => by rw [hempty t ht]; rfl) hok
    intro t ht
    have := h.2 t ht
    omega

/-- Witness for `update_appends_one_trail_point_per_orb`: one intensity-0
update on a fresh 400×400 instance (both conjuncts instantiated). -/
theorem update_appends_one_trail_point_per_orb_witness :
    (∀ t ∈ (resultState (runUpdates "sleep" (Visualizer.init 400 400)
        [some { intensity := some 0, has_recent_peak := none }])).trails,
      t.length = 1) := by
  have hok : isOk (runUpdates "sleep" (Visualizer.init 400 400)
      [some { intensity := some 0, has_recent_peak := none }]) = true := by
    rw [runUpdates, update_ok_of_nonpos (Visualizer.init 400 400)
      (some { intensity := some 0, has_recent_peak := none }) "sleep" (by rfl)
      (by norm_num [frameIntensity])]
    rfl
  have h := (update_appends_one_trail_point_per_orb "sleep").2
    (Visualizer.init 400 400)
    [some { intensity := some 0, has_recent_peak := none }]
    (by intro b hb; rw [List.mem_singleton] at hb; subst hb; rfl)
    (by norm_num [Visualizer.init])
    (by intro t ht; exact List.eq_of_mem_replicate ht)
    hok
  intro t ht
  exact h t ht


section SpringHelpers

lemma orbStepOk_eq {c : ℝ × ℝ} {R i : ℝ} {o : Orb} {x : Orb × TrailPoint}
    (h : orbStep c R i o = .ok x) : orbStepOk c R i o = x := by
  unfold orbStepOk
  rw [h]
  rfl

lemma lyap_nonneg (p : ℝ × ℝ) : 0 ≤ lyap p := by
  unfold lyap
  nlinarith [sq_nonneg (7 * p.1 + (25 / 7) * p.2), sq_nonneg p.2]

lemma lyap_dominates_sq (p : ℝ × ℝ) : 244375 * p.1 ^ 2 ≤ 5000 * lyap p := by
  unfold lyap
  nlinarith [sq_nonneg (25 * p.1 + 5000 * p.2)]

lemma radialStep_spring (R : ℝ) (p : ℝ × ℝ) (hRd : 0 ≤ R + p.1) (hd : p.1 ≠ 0) :
    radialStep R p = (p.1 + (p.2 + -spring_constant * p.1),
                      (p.2 + -spring_constant * p.1) * damping) := by
  unfold radialStep
  rw [abs_of_nonneg hRd]
  have h1 : R + p.1 - R = p.1 := by ring
  rw [h1, if_pos (abs_pos.mpr hd)]

lemma radialStep_fst_zero (R : ℝ) (hR : 0 ≤ R) (p : ℝ × ℝ) (h : p.1 = 0) :
    (radialStep R p).1 = 0 := by
  unfold radialStep
  rw [h, add_zero, abs_of_nonneg hR, sub_self]
  simp

lemma lyap_radialStep (R : ℝ) (p : ℝ × ℝ) (hRd : 0 ≤ R + p.1) (hd : p.1 ≠ 0) :
    lyap (radialStep R p) = damping * lyap p := by
  rw [radialStep_spring R p hRd hd]
  unfold lyap spring_constant damping
  norm_num
  ring

lemma radialStep_of_dev_zero (R : ℝ) (p : ℝ × ℝ) (h : |R + p.1| - R = 0) :
    radialStep R p = (0, p.2) := by
  unfold radialStep
  rw [h]
  simp

lemma radialStep_spring_of_dev_ne (R : ℝ) (p : ℝ × ℝ) (hd : |R + p.1| - R ≠ 0) :
    radialStep R p =
      ((|R + p.1| - R) + (p.2 + -spring_constant * (|R + p.1| - R)),
       (p.2 + -spring_constant * (|R + p.1| - R)) * damping) := by
  unfold radialStep
  rw [if_pos (abs_pos.mpr hd)]

lemma lyap_spring (x y : ℝ) :
    lyap (x + (y + -spring_constant * x), (y + -spring_constant * x) * damping) =
      damping * lyap (x, y) := by
  unfold lyap spring_constant damping
  norm_num
  ring

lemma lyap_fold_le (R d u : ℝ) (hR : 0 ≤ R) (hdR : R + d ≤ 0) (hu : u ≤ 0) :
    lyap (-(2 * R) - d, u) ≤ lyap (d, u) := by
  unfold lyap
  simp only
  nlinarith [mul_nonneg (neg_nonneg.mpr hdR) (by linarith : (0:ℝ) ≤ 196 * R - 100 * u)]

/-- The folded deviation `|R+d| - R` never increases the Lyapunov form when
the radial velocity is nonpositive — and along any trajectory a state with
`d < -R` is only ever entered with nonpositive radial velocity, because the
previous spring step produced `d = dev1 + u1` with `dev1 ≥ -R`, forcing
`u1 < 0`.  This makes the geometric envelope unconditional in the size of the
initial deviation. -/
lemma radial_envelope (R : ℝ) (hR : 0 < R) (p0 : ℝ × ℝ)
    (hu0 : p0.1 < -R → p0.2 ≤ 0) :
    ∀ n : ℕ, ((radialStep R)^[n] p0).1 = 0 ∨
      (lyap ((radialStep R)^[n] p0) ≤ damping ^ n * lyap p0 ∧
       (((radialStep R)^[n] p0).1 < -R → ((radialStep R)^[n] p0).2 ≤ 0)) := by
  intro n
  induction n with
  | zero => right; exact ⟨by simp, hu0⟩
  | succ n ih =>
    rw [Function.iterate_succ_apply']
    rcases ih with h0 | ⟨hV, hsign⟩
    · exact Or.inl (radialStep_fst_zero R hR.le _ h0)
    · set q := (radialStep R)^[n] p0 with hq
      by_cases hd1 : |R + q.1| - R = 0
      · left
        rw [radialStep_of_dev_zero R q hd1]
      · right
        rw [radialStep_spring_of_dev_ne R q hd1]
        have hdnn : (0:ℝ) ≤ damping := by norm_num [damping]
        have hfold : lyap (|R + q.1| - R, q.2) ≤ lyap (q.1, q.2) := by
          by_cases hc : 0 ≤ R + q.1
          · rw [abs_of_nonneg hc]
            have : R + q.1 - R = q.1 := by ring
            rw [this]
          · push_neg at hc
            have habs : |R + q.1| - R = -(2 * R) - q.1 := by
              rw [abs_of_neg hc]
              ring
            rw [habs]
            exact lyap_fold_le R q.1 q.2 hR.le hc.le (hsign (by linarith))
        have hqpair : lyap (q.1, q.2) = lyap q := by
          rfl
        constructor
        · rw [lyap_spring (|R + q.1| - R) q.2]
          calc damping * lyap (|R + q.1| - R, q.2)
              ≤ damping * lyap (q.1, q.2) := mul_le_mul_of_nonneg_left hfold hdnn
            _ = damping * lyap q := by rw [hqpair]
            _ ≤ damping * (damping ^ n * lyap p0) := mul_le_mul_of_nonneg_left hV hdnn
            _ = damping ^ (n + 1) * lyap p0 := by ring
        · intro hnext
          simp only at hnext ⊢
          have hd1ge : -R ≤ |R + q.1| - R := by
            have := abs_nonneg (R + q.1)
            linarith
          have hu1 : q.2 + -spring_constant * (|R + q.1| - R) < 0 := by
            by_contra hcon
            push_neg at hcon
            have : -R ≤ (|R + q.1| - R) + (q.2 + -spring_constant * (|R + q.1| - R)) := by
              linarith
            linarith
          have : (0:ℝ) < damping := by norm_num [damping]
          nlinarith

lemma radial_sq_bound (R : ℝ) (hR : 0 < R) (p0 : ℝ × ℝ)
    (hu0 : p0.1 < -R → p0.2 ≤ 0) (n : ℕ) :
    244375 * (((radialStep R)^[n] p0).1) ^ 2 ≤ 5000 * (damping ^ n * lyap p0) := by
  rcases radial_envelope R hR p0 hu0 n with h0 | ⟨hV, -⟩
  · rw [h0]
    have h1 : 0 ≤ damping ^ n * lyap p0 :=
      mul_nonneg (pow_nonneg (by norm_num [damping]) n) (lyap_nonneg p0)
    nlinarith
  · have h2 := lyap_dominates_sq ((radialStep R)^[n] p0)
    nlinarith

lemma radial_tendsto (R : ℝ) (hR : 0 < R) (p0 : ℝ × ℝ)
    (hu0 : p0.1 < -R → p0.2 ≤ 0) :
    Filter.Tendsto (fun n => ((radialStep R)^[n] p0).1) Filter.atTop (nhds 0) := by
  rw [tendsto_zero_iff_abs_tendsto_zero]
  have hsq : Filter.Tendsto (fun n => (((radialStep R)^[n] p0).1) ^ 2)
      Filter.atTop (nhds 0) := by
    have hg : Filter.Tendsto
        (fun n : ℕ => (5000 * lyap p0 / 244375) * damping ^ n) Filter.atTop (nhds 0) := by
      have hd : Filter.Tendsto (fun n : ℕ => damping ^ n) Filter.atTop (nhds 0) :=
        tendsto_pow_atTop_nhds_zero_of_lt_one (by norm_num [damping]) (by norm_num [damping])
      simpa using hd.const_mul (5000 * lyap p0 / 244375)
    exact squeeze_zero (fun n => sq_nonneg _)
      (fun n => by linarith [radial_sq_bound R hR p0 hu0 n]) hg
  have h1 : Filter.Tendsto
      (fun n => Real.sqrt ((((radialStep R)^[n] p0).1) ^ 2)) Filter.atTop (nhds 0) := by
    have := (Real.continuous_sqrt.tendsto 0).comp hsq
    simpa using this
  have h2 : ∀ n : ℕ, Real.sqrt ((((radialStep R)^[n] p0).1) ^ 2) =
      |((radialStep R)^[n] p0).1| := fun n => Real.sqrt_sq_eq_abs _
  exact Filter.Tendsto.congr h2 h1

lemma runUpdates_radial (cat : String) (a : Option AudioData)
    (ha : audioTruthy a = true) (hi : frameIntensity a ≤ 0) (j : ℕ) :
    ∀ (n : ℕ) (v : Visualizer), j < v.orbs.length →
      (v.orbs.getD j dummyOrb).x_velocity = 0 →
      (v.orbs.getD j dummyOrb).y_velocity = 0 →
      isOk (runUpdates cat v (List.replicate n a)) = true ∧
      j < (resultState (runUpdates cat v (List.replicate n a))).orbs.length ∧
      ((resultState (runUpdates cat v (List.replicate n a))).orbs.getD j
        dummyOrb).x_velocity = 0 ∧
      ((resultState (runUpdates cat v (List.replicate n a))).orbs.getD j
        dummyOrb).y_velocity = 0 ∧
      (((resultState (runUpdates cat v (List.replicate n a))).orbs.getD j
          dummyOrb).deviation,
       ((resultState (runUpdates cat v (List.replicate n a))).orbs.getD j
          dummyOrb).radial_velocity) =
        (radialStep v.orbit_radius)^[n]
          ((v.orbs.getD j dummyOrb).deviation, (v.orbs.getD j dummyOrb).radial_velocity)
  | 0, v, hj, hxv, hyv => by
    exact ⟨rfl, hj, hxv, hyv, rfl⟩
  | Nat.succ n, v, hj, hxv, hyv => by
    have hstep := orbStep_zero_vel v.center v.orbit_radius (frameIntensity a)
      (v.orbs.getD j dummyOrb) hi hxv hyv
    have hup := update_ok_of_nonpos v a cat ha hi
    rw [List.replicate_succ, runUpdates, hup]
    set w : Visualizer :=
      { v with
        glow_intensity := min 1.0 (v.glow_intensity + frameIntensity a * 0.5) * 0.95
        orbs := v.orbs.map
          (fun o => (orbStepOk v.center v.orbit_radius (frameIntensity a) o).1)
        trails := appendTrails
          (v.orbs.map
            (fun o => (orbStepOk v.center v.orbit_radius (frameIntensity a) o).2))
          v.trails
        time := v.time + 0.016
        selection_pulse := pymod (v.selection_pulse + 0.05) (2 * π) } with hwdef
    have hwOrb : w.orbs.getD j dummyOrb =
        (orbStepOk v.center v.orbit_radius (frameIntensity a) (v.orbs.getD j dummyOrb)).1 := by
      rw [hwdef]
      simp only
      have hjm : j < (v.orbs.map
          (fun o => (orbStepOk v.center v.orbit_radius (frameIntensity a) o).1)).length := by
        simpa using hj
      rw [List.getD_eq_getElem _ dummyOrb hjm, List.getElem_map,
        List.getD_eq_getElem v.orbs dummyOrb hj]
    have hrec : (orbStepOk v.center v.orbit_radius (frameIntensity a)
        (v.orbs.getD j dummyOrb)).1 =
        { v.orbs.getD j dummyOrb with
            angle := atan2
              (Real.sin ((v.orbs.getD j dummyOrb).angle +
                  (v.orbs.getD j dummyOrb).angular_velocity) *
                (v.orbit_radius + (v.orbs.getD j dummyOrb).deviation))
              (Real.cos ((v.orbs.getD j dummyOrb).angle +
                  (v.orbs.getD j dummyOrb).angular_velocity) *
                (v.orbit_radius + (v.orbs.getD j dummyOrb).deviation))
            deviation := (radialStep v.orbit_radius
              ((v.orbs.getD j dummyOrb).deviation,
               (v.orbs.getD j dummyOrb).radial_velocity)).1
            radial_velocity := (radialStep v.orbit_radius
              ((v.orbs.getD j dummyOrb).deviation,
               (v.orbs.getD j dummyOrb).radial_velocity)).2 } := by
      rw [orbStepOk_eq hstep]
    have hjw : j < w.orbs.length := by
      rw [hwdef]
      simpa using hj
    have hwxv : (w.orbs.getD j dummyOrb).x_velocity = 0 := by
      rw [hwOrb, hrec]
      exact hxv
    have hwyv : (w.orbs.getD j dummyOrb).y_velocity = 0 := by
      rw [hwOrb, hrec]
      exact hyv
    have hwrad : w.orbit_radius = v.orbit_radius := rfl
    have IH := runUpdates_radial cat a ha hi j n w hjw hwxv hwyv
    refine ⟨IH.1, IH.2.1, IH.2.2.1, IH.2.2.2.1, ?_⟩
    rw [IH.2.2.2.2, hwrad, hwOrb, hrec]
    simp only
    rw [← Function.iterate_succ_apply]

end SpringHelpers

/-- C5 (amended): an orb with nonzero deviation, zero radial velocity and
zero Cartesian velocities, driven by repeated zero-intensity updates, has its
deviation converge to 0, whatever the size of the initial deviation: the
Lyapunov form `49d² + 50du + 5000u²` contracts by exactly the factor 0.98
under the spring step, and the `|R+d| - R` re-derivation (the orb passing
through the center) is only ever reached with nonpositive radial velocity,
where it too cannot increase the form.  Convergence is however *oscillatory*
— the spring is underdamped and the deviation overshoots zero — so
`|deviation|` is NOT monotonically decreasing, even from zero initial
velocities (see the counterexample). -/
theorem deviation_tendsto_zero (cat : String) (a : Option AudioData) (v : Visualizer)
    (j : ℕ) (ha : audioTruthy a = true) (hi : frameIntensity a = 0)
    (hR : 0 < v.orbit_radius) (hj : j < v.orbs.length)
    (hxv : (v.orbs.getD j dummyOrb).x_velocity = 0)
    (hyv : (v.orbs.getD j dummyOrb).y_velocity = 0)
    (hrv : (v.orbs.getD j dummyOrb).radial_velocity = 0)
    (hdev : (v.orbs.getD j dummyOrb).deviation ≠ 0) :
    Filter.Tendsto (fun n =>
        ((resultState (runUpdates cat v
            (List.replicate n a))).orbs.getD j dummyOrb).deviation)
      Filter.atTop (nhds 0) := by
  have hu0 : ((v.orbs.getD j dummyOrb).deviation,
      (v.orbs.getD j dummyOrb).radial_velocity).1 < -v.orbit_radius →
      ((v.orbs.getD j dummyOrb).deviation,
        (v.orbs.getD j dummyOrb).radial_velocity).2 ≤ 0 :=
    fun _ => le_of_eq hrv
  have key := radial_tendsto v.orbit_radius hR
    ((v.orbs.getD j dummyOrb).deviation, (v.orbs.getD j dummyOrb).radial_velocity) hu0
  refine Filter.Tendsto.congr (fun n => ?_) key
  have h := (runUpdates_radial cat a ha (le_of_eq hi) j n v hj hxv hyv).2.2.2.2
  exact (congrArg Prod.fst h).symm

/-- Witness for `deviation_tendsto_zero`: the perturbed instance
(deviation 50, orbit radius 100) with zero-intensity frames. -/
theorem deviation_tendsto_zero_witness :
    Filter.Tendsto (fun n =>
        ((resultState (runUpdates "sleep" perturbedViz
            (List.replicate n (some { intensity := some 0, has_recent_peak := none })))).orbs.getD
          0 dummyOrb).deviation)
      Filter.atTop (nhds 0) := by
  apply deviation_tendsto_zero "sleep"
    (some { intensity := some 0, has_recent_peak := none }) perturbedViz 0 rfl
  · norm_num [frameIntensity]
  · norm_num [perturbedViz, Visualizer.orbit_radius, Visualizer.init]
  · norm_num [perturbedViz, Visualizer.init]
  · rfl
  · rfl
  · rfl
  · show (50:ℝ) ≠ 0
    norm_num

/-- C5 counterexample: from deviation 50 and all velocities zero (orbit
radius 100), with zero audio input throughout, `|deviation|` after 17 updates
exceeds `|deviation|` after 16 updates — the underdamped spring overshoots
zero around frame 16-17 — refuting the claimed monotone decrease (velocities
start at 0, below any threshold). -/
theorem deviation_monotone_cex :
    |((resultState (runUpdates "sleep" perturbedViz
        (List.replicate 16 (some { intensity := some 0, has_recent_peak := none })))).orbs.getD
          0 dummyOrb).deviation| <
    |((resultState (runUpdates "sleep" perturbedViz
        (List.replicate 17 (some { intensity := some 0, has_recent_peak := none })))).orbs.getD
          0 dummyOrb).deviation| := by
  have hj : 0 < perturbedViz.orbs.length := by
    norm_num [perturbedViz, Visualizer.init]
  have h16 := (runUpdates_radial "sleep"
    (some { intensity := some 0, has_recent_peak := none }) rfl
    (by norm_num [frameIntensity]) 0 16 perturbedViz hj rfl rfl).2.2.2.2
  have h17 := (runUpdates_radial "sleep"
    (some { intensity := some 0, has_recent_peak := none }) rfl
    (by norm_num [frameIntensity]) 0 17 perturbedViz hj rfl rfl).2.2.2.2
  have hrad : perturbedViz.orbit_radius = 100 := by
    norm_num [perturbedViz, Visualizer.orbit_radius, Visualizer.init]
  have hp : ((perturbedViz.orbs.getD 0 dummyOrb).deviation,
      (perturbedViz.orbs.getD 0 dummyOrb).radial_velocity) = ((50:ℝ), (0:ℝ)) := rfl
  rw [hrad, hp] at h16 h17
  have e0 : (radialStep (100:ℝ))^[0] ((50:ℝ), (0:ℝ)) = (50, 0) := rfl
  have e1 : (radialStep (100:ℝ))^[1] ((50:ℝ), (0:ℝ)) = (49.5, (-0.49)) := by
    rw [Function.iterate_succ_apply', e0,
      radialStep_spring 100 (50, 0) (by norm_num) (by norm_num)]
    norm_num [spring_constant, damping]
  have e2 : (radialStep (100:ℝ))^[2] ((50:ℝ), (0:ℝ)) = (48.515, (-0.9653)) := by
    rw [Function.iterate_succ_apply', e1,
      radialStep_spring 100 (49.5, (-0.49)) (by norm_num) (by norm_num)]
    norm_num [spring_constant, damping]
  have e3 : (radialStep (100:ℝ))^[3] ((50:ℝ), (0:ℝ)) = (47.06455, (-1.421441)) := by
    rw [Function.iterate_succ_apply', e2,
      radialStep_spring 100 (48.515, (-0.9653)) (by norm_num) (by norm_num)]
    norm_num [spring_constant, damping]
  have e4 : (radialStep (100:ℝ))^[4] ((50:ℝ), (0:ℝ)) = (45.1724635, (-1.85424477)) := by
    rw [Function.iterate_succ_apply', e3,
      radialStep_spring 100 (47.06455, (-1.421441)) (by norm_num) (by norm_num)]
    norm_num [spring_constant, damping]
  have e5 : (radialStep (100:ℝ))^[5] ((50:ℝ), (0:ℝ)) = (42.866494095, (-2.2598500169)) := by
    rw [Function.iterate_succ_apply', e4,
      radialStep_spring 100 (45.1724635, (-1.85424477)) (by norm_num) (by norm_num)]
    norm_num [spring_constant, damping]
  have e6 : (radialStep (100:ℝ))^[6] ((50:ℝ), (0:ℝ)) = (40.17797913715, (-2.634744658693)) := by
    rw [Function.iterate_succ_apply', e5,
      radialStep_spring 100 (42.866494095, (-2.2598500169)) (by norm_num) (by norm_num)]
    norm_num [spring_constant, damping]
  have e7 : (radialStep (100:ℝ))^[7] ((50:ℝ), (0:ℝ)) = (37.1414546870855, (-2.97579396106321)) := by
    rw [Function.iterate_succ_apply', e6,
      radialStep_spring 100 (40.17797913715, (-2.634744658693)) (by norm_num) (by norm_num)]
    norm_num [spring_constant, damping]
  have e8 : (radialStep (100:ℝ))^[8] ((50:ℝ), (0:ℝ)) = (33.794246179151435, (-3.2802643377753837)) := by
    rw [Function.iterate_succ_apply', e7,
      radialStep_spring 100 (37.1414546870855, (-2.97579396106321)) (by norm_num) (by norm_num)]
    norm_num [spring_constant, damping]
  have e9 : (radialStep (100:ℝ))^[9] ((50:ℝ), (0:ℝ)) = (30.17603937958453695, (-3.545842663575560089)) := by
    rw [Function.iterate_succ_apply', e8,
      radialStep_spring 100 (33.794246179151435, (-3.2802643377753837)) (by norm_num) (by norm_num)]
    norm_num [spring_constant, damping]
  have e10 : (radialStep (100:ℝ))^[10] ((50:ℝ), (0:ℝ)) = (26.3284363222131314915, (-3.77065099622397734933)) := by
    rw [Function.iterate_succ_apply', e9,
      radialStep_spring 100 (30.17603937958453695, (-3.545842663575560089)) (by norm_num) (by norm_num)]
    norm_num [spring_constant, damping]
  have e11 : (radialStep (100:ℝ))^[11] ((50:ℝ), (0:ℝ)) = (22.294500962767022827255, (-3.9532566522571864909601)) := by
    rw [Function.iterate_succ_apply', e10,
      radialStep_spring 100 (26.3284363222131314915, (-3.77065099622397734933)) (by norm_num) (by norm_num)]
    norm_num [spring_constant, damping]
  have e12 : (radialStep (100:ℝ))^[12] ((50:ℝ), (0:ℝ)) = (18.11829930088216610802235, (-4.092677628647159584847997)) := by
    rw [Function.iterate_succ_apply', e11,
      radialStep_spring 100 (22.294500962767022827255, (-3.9532566522571864909601)) (by norm_num) (by norm_num)]
    norm_num [spring_constant, damping]
  have e13 : (radialStep (100:ℝ))^[13] ((50:ℝ), (0:ℝ)) = (13.8444386792261848620941295, (-4.18838340922286162100965609)) := by
    rw [Function.iterate_succ_apply', e12,
      radialStep_spring 100 (18.11829930088216610802235, (-4.092677628647159584847997)) (by norm_num) (by norm_num)]
    norm_num [spring_constant, damping]
  have e14 : (radialStep (100:ℝ))^[14] ((50:ℝ), (0:ℝ)) = (9.517610883211061392463532115, (-4.2402912400948210002379854373)) := by
    rw [Function.iterate_succ_apply', e13,
      radialStep_spring 100 (13.8444386792261848620941295, (-4.18838340922286162100965609)) (by norm_num) (by norm_num)]
    norm_num [spring_constant, damping]
  have e15 : (radialStep (100:ℝ))^[15] ((50:ℝ), (0:ℝ)) = (5.18214353428412977830091135655, (-4.248758001948392981879368343281)) := by
    rw [Function.iterate_succ_apply', e14,
      radialStep_spring 100 (9.517610883211061392463532115, (-4.2402912400948210002379854373)) (by norm_num) (by norm_num)]
    norm_num [spring_constant, damping]
  have e16 : (radialStep (100:ℝ))^[16] ((50:ℝ), (0:ℝ)) = (0.8815640969928954986385338997035, (-4.21456784854540959406912990770957)) := by
    rw [Function.iterate_succ_apply', e15,
      radialStep_spring 100 (5.18214353428412977830091135655, (-4.248758001948392981879368343281)) (by norm_num) (by norm_num)]
    norm_num [spring_constant, damping]
  have e17 : (radialStep (100:ℝ))^[17] ((50:ℝ), (0:ℝ)) = ((-3.341819392522443050416981347003105), (-4.1389158197250317780744049417724729)) := by
    rw [Function.iterate_succ_apply', e16,
      radialStep_spring 100 (0.8815640969928954986385338997035, (-4.21456784854540959406912990770957)) (by norm_num) (by norm_num)]
    norm_num [spring_constant, damping]
  rw [e16] at h16
  rw [e17] at h17
  have hd16 := ((Prod.mk.injEq _ _ _ _).mp h16).1
  have hd17 := ((Prod.mk.injEq _ _ _ _).mp h17).1
  rw [hd16, hd17]
  rw [abs_of_pos (show (0:ℝ) < 0.8815640969928954986385338997035 by norm_num),
    abs_of_neg (show (-3.341819392522443050416981347003105 : ℝ) < 0 by norm_num)]
  norm_num


end Spacejam
